import Mathlib

set_option maxRecDepth 8000

/-!
Verification development for the acromag DAC driver core of nasa-jpl/golaborate.

The C sources are shallowly embedded: C doubles become exact rationals,
C shorts become integers with explicit 16-bit reduction where the code
truncates, register and flash traffic becomes explicit state passing and
operation traces, and the hardware responses that the code merely observes
(flash status polls, DMA status reads) become function parameters.
-/

namespace Golaborate

/-! Section 1: the correction engine.
Sources: AP236/cd236.c (cd236), cd235.c (cd235), wro236.c (wro236),
ideal-code table from AP236/drvr236.c (IdealCode). -/

/-- Column IDEALZEROBTC (index 1) of the IdealCode table in drvr236.c. -/
def idealZeroBTC : Fin 8 → ℚ := ![0, -32768, 0, -32768, -16384, 0, -32768, -32768]

/-- Column IDEALSLOPE (index 2) of the IdealCode table in drvr236.c:
3276.8, 6553.6, 6553.6, 13107.2, 6553.6, 10922.67, 4095.9, 3276.8. -/
def idealSlope : Fin 8 → ℚ :=
  ![32768/10, 65536/10, 65536/10, 131072/10, 65536/10, 1092267/100, 40959/10, 32768/10]

/-- Column CLIPLO (index 5) of the IdealCode table in drvr236.c. -/
def clipLo : Fin 8 → ℚ :=
  ![-32768, -32768, -32768, -32768, -32768, -32768, -32768, -32768]

/-- Column CLIPHI (index 6) of the IdealCode table in drvr236.c. -/
def clipHi : Fin 8 → ℚ :=
  ![32767, 32767, 32767, 32767, 32767, 32767, 32767, 32767]

/-- Truncation toward zero, the effect of the C cast from double to short
(the cast is applied only after clipping, so the value is in range). -/
def ratTrunc (q : ℚ) : ℤ := if q < 0 then ⌈q⌉ else ⌊q⌋

/-- The f_cor formula of cd236.c lines 77-78 (identical in cd235.c lines 80-81):
f_cor = (1 + gain/1048576) * IdealCode[range][IDEALSLOPE] * Volts
        + IdealCode[range][IDEALZEROBTC] + offset/16. -/
def f_cor236 (gain offset : ℤ) (range : Fin 8) (volts : ℚ) : ℚ :=
  (1 + (gain : ℚ) / 1048576) * idealSlope range * volts
    + idealZeroBTC range + (offset : ℚ) / 16

/-- cd236 (cd236.c lines 77-88): compute f_cor, add +0.5 when nonnegative and
-0.5 when negative (line 80), clip with fmin against CLIPHI then fmax against
CLIPLO (lines 82-83), and cast the double to short (line 88). -/
def cd236 (gain offset : ℤ) (range : Fin 8) (volts : ℚ) : ℤ :=
  let f1 := f_cor236 gain offset range volts
  let f2 := if f1 < 0 then f1 - 1/2 else f1 + 1/2
  ratTrunc (max (clipLo range) (min f2 (clipHi range)))

/-- The 16-bit pattern of a C short value (two's-complement object
representation). -/
def bits16 (v : ℤ) : ℕ := (v % 65536).toNat

/-- The BTC-to-straight-binary sign-bit flip applied to the outgoing code:
data ^= 0x8000 in wro236.c line 76 and cd235.c line 92. -/
def btcToStraight (c : ℤ) : ℕ := bits16 c ^^^ 0x8000

/-- The full single-sample output pipeline of the AP236 board: cd236
correction followed by the sign-bit flip wro236 performs before writing the
code to the DAC register. -/
def cd236transmit (gain offset : ℤ) (range : Fin 8) (volts : ℚ) : ℕ :=
  btcToStraight (cd236 gain offset range volts)

/-- cd235 (cd235.c lines 78-93): the batch variant, applying per sample the
same f_cor/round/clip/cast computation as cd236 (the loop bodies are
textually identical) and then the sign-bit flip of line 92, in order. -/
def cd235 (gain offset : ℤ) (range : Fin 8) (fb : List ℚ) : List ℕ :=
  fb.map fun v => btcToStraight (cd236 gain offset range v)

/-! Spec-side formulation of the correction algorithm, written from the
specification wording for the refinement comparison: raw value, then round
half-away-from-zero (add 0.5 when nonnegative, -0.5 when negative, then
truncate), then clip to the integer bounds, then flip the sign bit. -/

/-- Raw value as the spec words it:
raw = (1 + gain/1048576) * idealSlope[range] * volts + idealZeroBTC[range] + offset/16. -/
def specRaw (gain offset : ℤ) (range : Fin 8) (volts : ℚ) : ℚ :=
  (1 + (gain : ℚ) / 1048576) * idealSlope range * volts
    + idealZeroBTC range + (offset : ℚ) / 16

/-- Spec-side rounding: add 0.5 when the value is nonnegative, -0.5 when
negative, then truncate. -/
def specRound (f : ℚ) : ℤ := ratTrunc (if f < 0 then f - 1/2 else f + 1/2)

/-- Spec-side integer clip lower bounds per range. -/
def clipLoZ : Fin 8 → ℤ :=
  ![-32768, -32768, -32768, -32768, -32768, -32768, -32768, -32768]

/-- Spec-side integer clip upper bounds per range. -/
def clipHiZ : Fin 8 → ℤ :=
  ![32767, 32767, 32767, 32767, 32767, 32767, 32767, 32767]

/-- Spec-side corrected code: round the raw value, then clip to
[clipLow[range], clipHigh[range]]. -/
def specCorrect (gain offset : ℤ) (range : Fin 8) (volts : ℚ) : ℤ :=
  max (clipLoZ range) (min (specRound (specRaw gain offset range volts)) (clipHiZ range))

/-- Spec-side transmitted code: invert the sign bit of the 16-bit
two's-complement pattern. -/
def specTransmit (gain offset : ℤ) (range : Fin 8) (volts : ℚ) : ℕ :=
  bits16 (specCorrect gain offset range volts) ^^^ 0x8000

lemma ratTrunc_intCast (n : ℤ) : ratTrunc (n : ℚ) = n := by
  unfold ratTrunc
  split <;> simp

lemma ratTrunc_le_ceil (q : ℚ) : ratTrunc q ≤ ⌈q⌉ := by
  unfold ratTrunc
  split
  · exact le_refl _
  · exact Int.floor_le_ceil q

lemma floor_le_ratTrunc (q : ℚ) : ⌊q⌋ ≤ ratTrunc q := by
  unfold ratTrunc
  split
  · exact Int.floor_le_ceil q
  · exact le_refl _

lemma ratTrunc_min_intCast (q : ℚ) (b : ℤ) :
    ratTrunc (min q (b : ℚ)) = min (ratTrunc q) b := by
  rcases le_total q (b : ℚ) with hq | hq
  · rw [min_eq_left hq, min_eq_left]
    exact le_trans (ratTrunc_le_ceil q) (Int.ceil_le.mpr hq)
  · rw [min_eq_right hq, ratTrunc_intCast, min_eq_right]
    exact le_trans (Int.le_floor.mpr hq) (floor_le_ratTrunc q)

lemma ratTrunc_max_intCast (q : ℚ) (a : ℤ) :
    ratTrunc (max (a : ℚ) q) = max a (ratTrunc q) := by
  rcases le_total (a : ℚ) q with hq | hq
  · rw [max_eq_right hq, max_eq_right]
    exact le_trans (Int.le_floor.mpr hq) (floor_le_ratTrunc q)
  · rw [max_eq_left hq, ratTrunc_intCast, max_eq_left]
    exact le_trans (ratTrunc_le_ceil q) (Int.ceil_le.mpr hq)

lemma clipLo_eq_cast (r : Fin 8) : clipLo r = ((clipLoZ r : ℤ) : ℚ) := by
  fin_cases r <;> norm_num [clipLo, clipLoZ]

lemma clipHi_eq_cast (r : Fin 8) : clipHi r = ((clipHiZ r : ℤ) : ℚ) := by
  fin_cases r <;> norm_num [clipHi, clipHiZ]

lemma cd236_eq_specCorrect (gain offset : ℤ) (range : Fin 8) (volts : ℚ) :
    cd236 gain offset range volts = specCorrect gain offset range volts := by
  unfold cd236 specCorrect specRound specRaw
  rw [clipLo_eq_cast, clipHi_eq_cast]
  rw [ratTrunc_max_intCast, ratTrunc_min_intCast]
  rfl

/-- Claim C1: for every channel and pre-validated voltage the correction
engine computes raw = (1 + gain/1048576) * idealSlope[range] * volts +
idealZeroBTC[range] + offset/16, rounds half-away-from-zero, clips to
[clipLow[range], clipHigh[range]], and flips the sign bit (XOR 0x8000)
before transmission; the batch variant cd235 does this per sample preserving
order; and for range 0, zero offset, zero gain, volts = 0.0 the transmitted
code is 0x8000. -/
theorem C1_correction_engine :
    (∀ (gain offset : ℤ) (range : Fin 8) (volts : ℚ),
        cd236transmit gain offset range volts = specTransmit gain offset range volts) ∧
    (∀ (gain offset : ℤ) (range : Fin 8) (fb : List ℚ),
        cd235 gain offset range fb = fb.map (specTransmit gain offset range)) ∧
    cd236transmit 0 0 0 0 = 0x8000 := by
  refine ⟨?_, ?_, ?_⟩
  · intro gain offset range volts
    unfold cd236transmit specTransmit btcToStraight
    rw [cd236_eq_specCorrect]
  · intro gain offset range fb
    unfold cd235
    refine List.map_congr_left ?_
    intro v _
    show btcToStraight (cd236 gain offset range v) = specTransmit gain offset range v
    unfold specTransmit btcToStraight
    rw [cd236_eq_specCorrect]
  · show btcToStraight (cd236 0 0 0 0) = 0x8000
    have h1 : cd236 0 0 0 0 = 0 := by
      unfold cd236 f_cor236
      norm_num [idealSlope, idealZeroBTC, clipLo, clipHi, ratTrunc]
    rw [h1]
    decide

/-! Section 2: the serial-flash programming subsystem.
Source: ap236F/rwcc236.c.  The flash byte space is a function from address
to byte; the status-register polls that the code merely observes become a
function parameter giving the value of the i-th poll.  The SPI command
trace records the wren / sector-erase / page-program commands issued
(status-poll reads are not recorded in the trace). -/

/-- Flash byte space: byte stored at each address. -/
def Flash : Type := ℕ → ℕ

/-- FlashCoefficientMemoryAddress from AP236.h: start of the calibration
sector (channel 0 block). -/
def FlashCoefficientMemoryAddress : ℕ := 0x3FE000

/-- WIP (write in progress) status bit from rwcc236.c. -/
def WIP : ℕ := 0x01

/-- FMAX_TRIES from rwcc236.c: flash write status read tries. -/
def FMAX_TRIES : ℕ := 250

/-- The write-in-progress poll loop of rwcc236.c (lines 157-164 and
526-533): succeeds exactly when some poll among the first FMAX_TRIES reads
the WIP bit as zero. -/
def flashPollOk (polls : ℕ → ℕ) : Bool :=
  (List.range FMAX_TRIES).any fun i => polls i &&& WIP == 0

/-- SPI commands issued to the M25P10 flash device. -/
inductive M25Cmd
  | wren
  | sectorErase (address : ℕ)
  | pageProgram (address : ℕ) (data : List ℕ)
  deriving DecidableEq

/-- Overwrite data.length consecutive flash bytes starting at addr. -/
def writeBytes (f : Flash) (addr : ℕ) (data : List ℕ) : Flash :=
  fun a => if addr ≤ a ∧ a < addr + data.length then data.getD (a - addr) 0 else f a

/-- The effect of the sector erase on the flash bytes: the 4096-byte region
the blank check inspects is set to 0xFF. -/
def erasedFlash (f : Flash) : Flash := fun a =>
  if FlashCoefficientMemoryAddress ≤ a ∧ a < FlashCoefficientMemoryAddress + 4096
  then 0xFF else f a

/-- SectorErase_M25P10 (rwcc236.c lines 137-170): write-enable, sector-erase
at the calibration base address, then poll WIP; -1 when all FMAX_TRIES
polls stay busy, else 0. -/
def SectorErase_M25P10 (f : Flash) (polls : ℕ → ℕ) : ℤ × Flash × List M25Cmd :=
  let cmds := [M25Cmd.wren, M25Cmd.sectorErase FlashCoefficientMemoryAddress]
  if flashPollOk polls then (0, erasedFlash f, cmds) else (-1, erasedFlash f, cmds)

/-- WriteFlashBlock (rwcc236.c lines 502-539): reject lengths over 256
before any command is issued; otherwise write-enable, page-program the
block, then poll WIP; -2 when all FMAX_TRIES polls stay busy, else 0. -/
def WriteFlashBlock (f : Flash) (address : ℕ) (pdata : List ℕ) (polls : ℕ → ℕ) :
    ℤ × Flash × List M25Cmd :=
  if pdata.length > 256 then (-1, f, [])
  else
    let f' := writeBytes f address pdata
    let cmds := [M25Cmd.wren, M25Cmd.pageProgram address pdata]
    if flashPollOk polls then (0, f', cmds) else (-2, f', cmds)

/-- ReadByte_M25P10 (rwcc236.c lines 435-458): random single-byte read; the
status is -1 exactly when the caller's pointer is null, in which case the
caller's byte is not updated (modelled as 0). -/
def ReadByte_M25P10 (f : Flash) (address : ℕ) (pValid : Bool) : ℤ × ℕ :=
  if pValid then (0, f address % 256) else (-1, 0)

/-- BlankCheckFlash (rwcc236.c lines 217-246): count of the bytes among the
4096 read back from the erased region that are not 0xFF. -/
def BlankCheckFlash (f : Flash) : ℕ :=
  (List.range 4096).countP fun j =>
    (ReadByte_M25P10 f (FlashCoefficientMemoryAddress + j) true).2 != 0xFF

/-- One (channel, range) read of rcc236 (rwcc236.c lines 689-727): offset
MSB at j+1, offset LSB at j, gain MSB at j+3, gain LSB at j+2, each byte
positioned with shift-left 8 and or, each status checked and propagated. -/
def rcc236Pair (f : Flash) (channel range : ℕ) : Except ℤ (ℕ × ℕ) :=
  let j := FlashCoefficientMemoryAddress + channel * 256 + 4 * range
  let r1 := ReadByte_M25P10 f (j + 1) true
  if r1.1 ≠ 0 then Except.error r1.1 else
  let r2 := ReadByte_M25P10 f j true
  if r2.1 ≠ 0 then Except.error r2.1 else
  let r3 := ReadByte_M25P10 f (j + 3) true
  if r3.1 ≠ 0 then Except.error r3.1 else
  let r4 := ReadByte_M25P10 f (j + 2) true
  if r4.1 ≠ 0 then Except.error r4.1 else
  Except.ok ((r1.2 <<< 8) ||| r2.2, (r3.2 <<< 8) ||| r4.2)

/-- Row-major (channel, range) index list for the 8 x 8 coefficient table. -/
def chanRangePairs : List (ℕ × ℕ) :=
  (List.range 8).flatMap fun channel => (List.range 8).map fun range => (channel, range)

/-- rcc236 (rwcc236.c lines 673-731): read all 8 channels x 8 ranges of
(offset, gain) 16-bit patterns from flash, aborting on the first non-zero
read status; on success the filled table is returned row-major. -/
def rcc236 (f : Flash) : Except ℤ (List (ℕ × ℕ)) :=
  chanRangePairs.mapM fun p => rcc236Pair f p.1 p.2

/-- In-memory coefficient table: channel, range to (offset, gain) shorts. -/
def OgcTable : Type := ℕ → ℕ → ℤ × ℤ

/-- The 32-byte little-endian block WriteOGCoefs236 builds for one channel
(rwcc236.c lines 808-817): per range, offset LSB, offset MSB, gain LSB,
gain MSB.  The C unsigned char casts of a short v and of v >> 8 are
bits16 v % 256 and bits16 v / 256 on the 16-bit pattern. -/
def rangeBytes (ogc : OgcTable) (channel range : ℕ) : List ℕ :=
  [bits16 (ogc channel range).1 % 256, bits16 (ogc channel range).1 / 256,
   bits16 (ogc channel range).2 % 256, bits16 (ogc channel range).2 / 256]

/-- The channel block is the concatenation of the per-range 4-byte groups,
ranges 0 through 7 in order, as the buffer-fill loop produces. -/
def chBlock (ogc : OgcTable) (channel : ℕ) : List ℕ :=
  (List.range 8).flatMap (rangeBytes ogc channel)

/-- FlashIDString "AP236" from AP236.h, with the terminating NUL that
strcpy copies along (rwcc236.c line 827). -/
def FlashIDString : List ℕ := [0x41, 0x50, 0x32, 0x33, 0x36, 0x00]

/-- The final 256-byte block WriteOGCoefs236 programs at the highest
channel slot (rwcc236.c lines 826-830): 0xFF filler with the identity
string copied at offset 0xF0. -/
def idBlock : List ℕ := List.replicate 0xF0 0xFF ++ FlashIDString ++ List.replicate 10 0xFF

/-- The per-channel block-write loop of WriteOGCoefs236 (rwcc236.c lines
806-823), aborting on the first non-zero WriteFlashBlock status. -/
def writeChanBlocks (ogc : OgcTable) (wpolls : ℕ → ℕ → ℕ) (f0 : Flash) : Except ℤ Flash :=
  (List.range 8).foldl
    (fun acc channel => acc.bind fun f =>
      let r := WriteFlashBlock f (FlashCoefficientMemoryAddress + channel * 256)
                 (chBlock ogc channel) (wpolls channel)
      if r.1 ≠ 0 then Except.error r.1 else Except.ok r.2.1)
    (Except.ok f0)

/-- WriteOGCoefs236 (rwcc236.c lines 791-832): sector erase, blank check
(abort returning the mismatch count when non-zero), the 8 per-channel
32-byte blocks, then the 256-byte identity block at channel slot 15.
wpolls k gives the poll values of the k-th block write (k = 8 for the
identity block). -/
def WriteOGCoefs236 (ogc : OgcTable) (f : Flash) (epolls : ℕ → ℕ) (wpolls : ℕ → ℕ → ℕ) :
    Except ℤ Flash :=
  let e := SectorErase_M25P10 f epolls
  if e.1 ≠ 0 then Except.error e.1 else
  let bc := BlankCheckFlash e.2.1
  if bc ≠ 0 then Except.error (bc : ℤ) else
  (writeChanBlocks ogc wpolls e.2.1).bind fun f' =>
    let r := WriteFlashBlock f' (FlashCoefficientMemoryAddress + 15 * 256) idBlock (wpolls 8)
    if r.1 ≠ 0 then Except.error r.1 else Except.ok r.2.1

/-- Decode a 16-bit pattern back to the C short value it represents. -/
def i16ofBits (b : ℕ) : ℤ := if b < 32768 then (b : ℤ) else (b : ℤ) - 65536

lemma flashPollOk_iff (polls : ℕ → ℕ) :
    flashPollOk polls = true ↔ ∃ i < FMAX_TRIES, polls i &&& WIP = 0 := by
  simp [flashPollOk, List.any_eq_true, List.mem_range]

lemma flashPollOk_false (polls : ℕ → ℕ) (h : ∀ i, i < FMAX_TRIES → polls i &&& WIP ≠ 0) :
    flashPollOk polls = false := by
  rw [← Bool.not_eq_true, flashPollOk_iff]
  push_neg
  exact h

/-- Claim C3: if the WIP bit stays set on all 250 consecutive polls after a
page-program (WriteFlashBlock) or sector-erase (SectorErase_M25P10)
command, the operation returns a non-zero error; if WIP clears on any of
the 250 polls, the operation returns 0. -/
theorem C3_flash_write_timeout (f : Flash) (polls : ℕ → ℕ) (address : ℕ) (pdata : List ℕ)
    (hlen : pdata.length ≤ 256) :
    ((∀ i, i < FMAX_TRIES → polls i &&& WIP ≠ 0) →
      (SectorErase_M25P10 f polls).1 ≠ 0 ∧ (WriteFlashBlock f address pdata polls).1 ≠ 0) ∧
    ((∃ i < FMAX_TRIES, polls i &&& WIP = 0) →
      (SectorErase_M25P10 f polls).1 = 0 ∧ (WriteFlashBlock f address pdata polls).1 = 0) := by
  constructor
  · intro h
    have hp := flashPollOk_false polls h
    constructor
    · simp [SectorErase_M25P10, hp]
    · rw [WriteFlashBlock, if_neg (by omega)]
      simp [hp]
  · intro h
    have hp : flashPollOk polls = true := (flashPollOk_iff polls).mpr h
    constructor
    · simp [SectorErase_M25P10, hp]
    · rw [WriteFlashBlock, if_neg (by omega)]
      simp [hp]

/-- Witness for C3: a poll stream that always reads busy makes both
operations fail, and one that reads idle at once makes both succeed. -/
theorem C3_flash_write_timeout_witness :
    ((SectorErase_M25P10 (fun _ => 0) (fun _ => 1)).1 ≠ 0 ∧
      (WriteFlashBlock (fun _ => 0) 0 [] (fun _ => 1)).1 ≠ 0) ∧
    ((SectorErase_M25P10 (fun _ => 0) (fun _ => 0)).1 = 0 ∧
      (WriteFlashBlock (fun _ => 0) 0 [] (fun _ => 0)).1 = 0) :=
  ⟨(C3_flash_write_timeout (fun _ => 0) (fun _ => 1) 0 [] (by simp)).1
      (fun i _ => by decide),
   (C3_flash_write_timeout (fun _ => 0) (fun _ => 0) 0 [] (by simp)).2
      ⟨0, by decide, by decide⟩⟩

/-- Claim C9: a block length strictly greater than 256 makes
WriteFlashBlock return an error with the flash unchanged and no command
issued; lengths up to and including 256 proceed to the write-enable and
page-program sequence. -/
theorem C9_writeflashblock_length_guard (f : Flash) (polls : ℕ → ℕ) (address : ℕ)
    (pdata : List ℕ) :
    (pdata.length > 256 → WriteFlashBlock f address pdata polls = (-1, f, [])) ∧
    (pdata.length ≤ 256 →
      (WriteFlashBlock f address pdata polls).2.2 =
        [M25Cmd.wren, M25Cmd.pageProgram address pdata] ∧
      (WriteFlashBlock f address pdata polls).2.1 = writeBytes f address pdata) := by
  constructor
  · intro h
    rw [WriteFlashBlock, if_pos h]
  · intro h
    rw [WriteFlashBlock, if_neg (by omega)]
    cases hp : flashPollOk polls <;> simp [hp]

/-- Witness for C9: a 257-byte block is rejected untouched; a 2-byte block
issues write-enable and page-program. -/
theorem C9_writeflashblock_length_guard_witness :
    (WriteFlashBlock (fun _ => 0) 5 (List.replicate 257 1) (fun _ => 0) =
      (-1, (fun _ => 0), [])) ∧
    ((WriteFlashBlock (fun _ => 0) 5 [1, 2] (fun _ => 0)).2.2 =
        [M25Cmd.wren, M25Cmd.pageProgram 5 [1, 2]] ∧
      (WriteFlashBlock (fun _ => 0) 5 [1, 2] (fun _ => 0)).2.1 =
        writeBytes (fun _ => 0) 5 [1, 2]) :=
  ⟨(C9_writeflashblock_length_guard (fun _ => 0) (fun _ => 0) 5 (List.replicate 257 1)).1
      (by rw [List.length_replicate]; omega),
   (C9_writeflashblock_length_guard (fun _ => 0) (fun _ => 0) 5 [1, 2]).2 (by simp)⟩

/-- The value rcc236 decodes for one (channel, range) pair when every read
succeeds. -/
def rcc236Val (f : Flash) (channel range : ℕ) : ℕ × ℕ :=
  let j := FlashCoefficientMemoryAddress + channel * 256 + 4 * range
  (((f (j + 1) % 256) <<< 8) ||| f j % 256, ((f (j + 3) % 256) <<< 8) ||| f (j + 2) % 256)

lemma mapM_ok {α β ε : Type} (l : List α) (step : α → Except ε β) (g : α → β)
    (h : ∀ a ∈ l, step a = Except.ok (g a)) : l.mapM step = Except.ok (l.map g) := by
  induction l with
  | nil => rfl
  | cons a l ih =>
    rw [List.mapM_cons, h a (List.mem_cons_self a l), List.map_cons,
      ih (fun b hb => h b (List.mem_cons_of_mem a hb))]
    rfl

lemma rcc236Pair_ok (f : Flash) (channel range : ℕ) :
    rcc236Pair f channel range = Except.ok (rcc236Val f channel range) := by
  simp [rcc236Pair, rcc236Val, ReadByte_M25P10]

/-- Claim C10: ReadByte_M25P10 reports a non-zero status exactly when its
output pointer is null; rcc236 always passes a valid pointer, so it always
succeeds, returning all 8 x 8 decoded (offset, gain) pairs. -/
theorem C10_rcc236_always_succeeds (f : Flash) (address : ℕ) :
    (∀ pValid : Bool, (ReadByte_M25P10 f address pValid).1 ≠ 0 ↔ pValid = false) ∧
    rcc236 f = Except.ok (chanRangePairs.map fun p => rcc236Val f p.1 p.2) := by
  constructor
  · intro pValid
    cases pValid <;> simp [ReadByte_M25P10]
  · exact mapM_ok chanRangePairs _ _ (fun p _ => rcc236Pair_ok f p.1 p.2)

/-! Infrastructure for the write/read round trip (claim C2). -/

lemma byte_lor (hi lo : ℕ) (h : lo < 256) : (hi <<< 8) ||| lo = 256 * hi + lo := by
  apply Nat.eq_of_testBit_eq
  intro j
  rw [Nat.testBit_lor, Nat.testBit_shiftLeft,
    show (256 : ℕ) * hi + lo = 2 ^ 8 * hi + lo by norm_num,
    Nat.testBit_mul_pow_two_add hi (show lo < 2 ^ 8 by omega) j]
  rcases Nat.lt_or_ge j 8 with hj | hj
  · simp [Nat.not_le.mpr hj, hj]
  · have h28 : (256 : ℕ) ≤ 2 ^ j := by
      calc (256 : ℕ) = 2 ^ 8 := by norm_num
        _ ≤ 2 ^ j := Nat.pow_le_pow_right (by omega) hj
    have hlo : lo.testBit j = false :=
      Nat.testBit_eq_false_of_lt (lt_of_lt_of_le h h28)
    simp [hj, hlo, Nat.not_lt.mpr hj]

lemma bits16_lt (v : ℤ) : bits16 v < 65536 := by
  unfold bits16
  omega

lemma exceptBind_ok {α β ε : Type} (a : α) (g : α → Except ε β) :
    (Except.ok a : Except ε α).bind g = g a := rfl

lemma chBlock_length (ogc : OgcTable) (channel : ℕ) : (chBlock ogc channel).length = 32 := by
  rw [chBlock, show List.range 8 = [0, 1, 2, 3, 4, 5, 6, 7] from rfl]
  rfl

lemma flatMap4_length (g : ℕ → List ℕ) (h : ∀ i, (g i).length = 4) (n : ℕ) :
    ((List.range n).flatMap g).length = 4 * n := by
  induction n with
  | zero => rfl
  | succ m ih =>
    rw [List.range_succ, List.flatMap_append, List.length_append, ih]
    simp [h]
    omega

lemma flatMap4_getD (g : ℕ → List ℕ) (h : ∀ i, (g i).length = 4) (n r k : ℕ)
    (hr : r < n) (hk : k < 4) :
    ((List.range n).flatMap g).getD (4 * r + k) 0 = (g r).getD k 0 := by
  induction n with
  | zero => omega
  | succ m ih =>
    rw [List.range_succ, List.flatMap_append]
    rcases Nat.lt_or_ge r m with hrm | hrm
    · rw [List.getD_append]
      · exact ih hrm
      · rw [flatMap4_length g h]
        omega
    · have hrm' : r = m := by omega
      subst hrm'
      rw [List.getD_append_right]
      · rw [flatMap4_length g h, show 4 * r + k - 4 * r = k from by omega]
        simp [h]
      · rw [flatMap4_length g h]
        omega

lemma chBlock_getD (ogc : OgcTable) (channel r k : ℕ) (hr : r < 8) (hk : k < 4) :
    (chBlock ogc channel).getD (4 * r + k) 0 =
      [bits16 (ogc channel r).1 % 256, bits16 (ogc channel r).1 / 256,
       bits16 (ogc channel r).2 % 256, bits16 (ogc channel r).2 / 256].getD k 0 := by
  rw [chBlock]
  exact flatMap4_getD (rangeBytes ogc channel) (fun i => rfl) 8 r k hr hk

lemma writeBytes_miss (f : Flash) (addr : ℕ) (d : List ℕ) (a : ℕ)
    (h : ¬(addr ≤ a ∧ a < addr + d.length)) : writeBytes f addr d a = f a := by
  simp only [writeBytes, if_neg h]

lemma writeBytes_hit (f : Flash) (addr : ℕ) (d : List ℕ) (a : ℕ)
    (h : addr ≤ a ∧ a < addr + d.length) : writeBytes f addr d a = d.getD (a - addr) 0 := by
  simp only [writeBytes, if_pos h]

lemma WriteFlashBlock_ok (f : Flash) (address : ℕ) (pdata : List ℕ) (polls : ℕ → ℕ)
    (hlen : pdata.length ≤ 256) (hp : flashPollOk polls = true) :
    WriteFlashBlock f address pdata polls =
      (0, writeBytes f address pdata, [M25Cmd.wren, M25Cmd.pageProgram address pdata]) := by
  rw [WriteFlashBlock, if_neg (by omega), if_pos hp]

/-- The flash state after programming the blocks of the first n channels on
top of f0, as writeChanBlocks does on its success path. -/
def writeChans (ogc : OgcTable) (f0 : Flash) : ℕ → Flash
  | 0 => f0
  | n + 1 =>
    writeBytes (writeChans ogc f0 n) (FlashCoefficientMemoryAddress + n * 256) (chBlock ogc n)

lemma writeChans_read (ogc : OgcTable) (f0 : Flash) (n channel m : ℕ)
    (hch : channel < n) (hm : m < 32) :
    writeChans ogc f0 n (FlashCoefficientMemoryAddress + channel * 256 + m) =
      (chBlock ogc channel).getD m 0 := by
  induction n with
  | zero => omega
  | succ p ih =>
    rw [writeChans]
    rcases Nat.lt_or_ge channel p with hcp | hcp
    · rw [writeBytes_miss]
      · exact ih hcp
      · simp only [chBlock_length]
        omega
    · have hcp' : channel = p := by omega
      subst hcp'
      rw [writeBytes_hit]
      · congr 1
        omega
      · simp only [chBlock_length]
        omega

lemma idBlock_length : idBlock.length = 256 := by
  rw [idBlock, List.length_append, List.length_append, List.length_replicate,
    List.length_replicate]
  rfl

lemma blank_after_erase (f : Flash) : BlankCheckFlash (erasedFlash f) = 0 := by
  rw [BlankCheckFlash, List.countP_eq_zero]
  intro j hj
  rw [List.mem_range] at hj
  have : erasedFlash f (FlashCoefficientMemoryAddress + j) = 0xFF := by
    rw [erasedFlash, if_pos (by omega)]
  simp [ReadByte_M25P10, this]

lemma writeChanBlocks_ok (ogc : OgcTable) (wpolls : ℕ → ℕ → ℕ) (f0 : Flash)
    (hW : ∀ k, flashPollOk (wpolls k) = true) :
    writeChanBlocks ogc wpolls f0 = Except.ok (writeChans ogc f0 8) := by
  rw [writeChanBlocks, show List.range 8 = [0, 1, 2, 3, 4, 5, 6, 7] from rfl]
  simp only [List.foldl_cons, List.foldl_nil, exceptBind_ok]
  simp [WriteFlashBlock_ok, chBlock_length, hW, exceptBind_ok]
  rfl

lemma WriteOGCoefs236_ok (ogc : OgcTable) (f : Flash) (epolls : ℕ → ℕ)
    (wpolls : ℕ → ℕ → ℕ) (hE : flashPollOk epolls = true)
    (hW : ∀ k, flashPollOk (wpolls k) = true) :
    WriteOGCoefs236 ogc f epolls wpolls =
      Except.ok (writeBytes (writeChans ogc (erasedFlash f) 8)
        (FlashCoefficientMemoryAddress + 15 * 256) idBlock) := by
  have hse : SectorErase_M25P10 f epolls =
      (0, erasedFlash f, [M25Cmd.wren, M25Cmd.sectorErase FlashCoefficientMemoryAddress]) := by
    rw [SectorErase_M25P10, if_pos hE]
  have hid : WriteFlashBlock (writeChans ogc (erasedFlash f) 8)
      (FlashCoefficientMemoryAddress + 15 * 256) idBlock (wpolls 8) =
      (0, writeBytes (writeChans ogc (erasedFlash f) 8)
        (FlashCoefficientMemoryAddress + 15 * 256) idBlock,
       [M25Cmd.wren, M25Cmd.pageProgram (FlashCoefficientMemoryAddress + 15 * 256) idBlock]) :=
    WriteFlashBlock_ok _ _ _ _ (by rw [idBlock_length]) (hW 8)
  rw [WriteOGCoefs236]
  simp only [hse, blank_after_erase, writeChanBlocks_ok ogc wpolls _ hW, exceptBind_ok, hid]
  norm_num

lemma i16_bits_roundtrip (v : ℤ) (h1 : -32768 ≤ v) (h2 : v < 32768) :
    i16ofBits (bits16 v) = v := by
  simp only [i16ofBits, bits16]
  split <;> omega

/-- Claim C2: writing the in-memory calibration table with WriteOGCoefs236
and reading it back with rcc236 reproduces every (channel, range) offset and
gain value exactly, assuming the flash operations themselves succeed. -/
theorem C2_calibration_roundtrip (ogc : OgcTable) (f : Flash) (epolls : ℕ → ℕ)
    (wpolls : ℕ → ℕ → ℕ) (hE : flashPollOk epolls = true)
    (hW : ∀ k, flashPollOk (wpolls k) = true)
    (hRange : ∀ channel r, channel < 8 → r < 8 →
      -32768 ≤ (ogc channel r).1 ∧ (ogc channel r).1 < 32768 ∧
      -32768 ≤ (ogc channel r).2 ∧ (ogc channel r).2 < 32768) :
    ∃ f', WriteOGCoefs236 ogc f epolls wpolls = Except.ok f' ∧
      rcc236 f' = Except.ok (chanRangePairs.map fun p =>
        (bits16 (ogc p.1 p.2).1, bits16 (ogc p.1 p.2).2)) ∧
      ∀ channel r, channel < 8 → r < 8 →
        i16ofBits (bits16 (ogc channel r).1) = (ogc channel r).1 ∧
        i16ofBits (bits16 (ogc channel r).2) = (ogc channel r).2 := by
  refine ⟨_, WriteOGCoefs236_ok ogc f epolls wpolls hE hW, ?_, ?_⟩
  · rw [rcc236]
    apply mapM_ok
    intro p hp
    have hmem : p.1 < 8 ∧ p.2 < 8 := by
      simp only [chanRangePairs, List.mem_flatMap, List.mem_map, List.mem_range] at hp
      obtain ⟨c, hc, r, hr, hpr⟩ := hp
      rw [← hpr]
      exact ⟨hc, hr⟩
    obtain ⟨hc8, hr8⟩ := hmem
    rw [rcc236Pair_ok]
    congr 1
    -- evaluate the four byte reads of this pair against the written image
    have hread : ∀ k, k < 4 →
        writeBytes (writeChans ogc (erasedFlash f) 8)
            (FlashCoefficientMemoryAddress + 15 * 256) idBlock
            (FlashCoefficientMemoryAddress + p.1 * 256 + (4 * p.2 + k)) =
          [bits16 (ogc p.1 p.2).1 % 256, bits16 (ogc p.1 p.2).1 / 256,
           bits16 (ogc p.1 p.2).2 % 256, bits16 (ogc p.1 p.2).2 / 256].getD k 0 := by
      intro k hk
      rw [writeBytes_miss]
      · rw [writeChans_read ogc _ 8 p.1 _ hc8 (by omega)]
        exact chBlock_getD ogc p.1 p.2 k hr8 hk
      · rw [idBlock_length]
        omega
    have e0 := hread 0 (by omega)
    have e1 := hread 1 (by omega)
    have e2 := hread 2 (by omega)
    have e3 := hread 3 (by omega)
    simp only [List.getD_cons_zero, List.getD_cons_succ] at e0 e1 e2 e3
    rw [show (4 : ℕ) * p.2 + 0 = 4 * p.2 from by omega] at e0
    simp only [rcc236Val]
    have hb1 := bits16_lt (ogc p.1 p.2).1
    have hb2 := bits16_lt (ogc p.1 p.2).2
    rw [show FlashCoefficientMemoryAddress + p.1 * 256 + 4 * p.2 + 1 =
        FlashCoefficientMemoryAddress + p.1 * 256 + (4 * p.2 + 1) from by omega,
      show FlashCoefficientMemoryAddress + p.1 * 256 + 4 * p.2 + 3 =
        FlashCoefficientMemoryAddress + p.1 * 256 + (4 * p.2 + 3) from by omega,
      show FlashCoefficientMemoryAddress + p.1 * 256 + 4 * p.2 + 2 =
        FlashCoefficientMemoryAddress + p.1 * 256 + (4 * p.2 + 2) from by omega,
      e0, e1, e2, e3]
    rw [show bits16 (ogc p.1 p.2).1 / 256 % 256 = bits16 (ogc p.1 p.2).1 / 256 from
        by omega,
      show bits16 (ogc p.1 p.2).1 % 256 % 256 = bits16 (ogc p.1 p.2).1 % 256 from by omega,
      show bits16 (ogc p.1 p.2).2 / 256 % 256 = bits16 (ogc p.1 p.2).2 / 256 from
        by omega,
      show bits16 (ogc p.1 p.2).2 % 256 % 256 = bits16 (ogc p.1 p.2).2 % 256 from by omega,
      byte_lor _ _ (by omega), byte_lor _ _ (by omega),
      Nat.div_add_mod, Nat.div_add_mod]
  · intro channel r hch hr
    obtain ⟨ho1, ho2, hg1, hg2⟩ := hRange channel r hch hr
    exact ⟨i16_bits_roundtrip _ ho1 ho2, i16_bits_roundtrip _ hg1 hg2⟩

/-- Witness for C2: a concrete table round trips through a zeroed flash
with immediately-idle polls. -/
theorem C2_calibration_roundtrip_witness :
    ∃ f', WriteOGCoefs236 (fun _ _ => (5, -7)) (fun _ => 0) (fun _ => 0) (fun _ _ => 0) =
        Except.ok f' ∧
      rcc236 f' = Except.ok (chanRangePairs.map fun _ => (bits16 5, bits16 (-7))) ∧
      ∀ channel r, channel < 8 → r < 8 →
        i16ofBits (bits16 5) = 5 ∧ i16ofBits (bits16 (-7)) = -7 := by
  have h := C2_calibration_roundtrip (fun _ _ => (5, -7)) (fun _ => 0) (fun _ => 0)
    (fun _ _ => 0) (by decide)
    (by intro k; exact (by decide : flashPollOk (fun _ => (0 : ℕ)) = true))
    (by intro channel r _ _; norm_num)
  exact h

/-! Control-flow model of WriteOGCoefs236 for the phase-ordering claim: the
status each flash suboperation reports back comes from the device, so it is
an environment parameter; the trace records the operations attempted, in
order. -/

/-- Flash operations WriteOGCoefs236 can attempt, in trace form. -/
inductive FlashOp
  | erase
  | blankCheck
  | progBlock (address : ℕ) (data : List ℕ)
  deriving DecidableEq

/-- Device-reported outcomes of the flash suboperations: the sector-erase
status, the blank-check mismatch count, and the status of the k-th
WriteFlashBlock call (k = 8 is the identity block). -/
structure FlashEnv where
  eraseStatus : ℤ
  blankCount : ℕ
  progStatus : ℕ → ℤ

/-- The per-channel loop of WriteOGCoefs236 (rwcc236.c lines 806-823):
program each listed channel block, returning the first non-zero status
immediately, with the trace of attempted block writes. -/
def chanLoop (ogc : OgcTable) (env : FlashEnv) : List ℕ → ℤ × List FlashOp
  | [] => (0, [])
  | c :: rest =>
    let op := FlashOp.progBlock (FlashCoefficientMemoryAddress + c * 256) (chBlock ogc c)
    if env.progStatus c ≠ 0 then (env.progStatus c, [op])
    else
      let r := chanLoop ogc env rest
      (r.1, op :: r.2)

/-- WriteOGCoefs236 as a phase sequence (rwcc236.c lines 791-832): erase,
blank check, the 8 channel blocks, the identity block; each non-zero device
status is returned at once and ends the trace. -/
def WriteOGCoefs236Trace (ogc : OgcTable) (env : FlashEnv) : ℤ × List FlashOp :=
  if env.eraseStatus ≠ 0 then (env.eraseStatus, [FlashOp.erase])
  else if env.blankCount ≠ 0 then
    ((env.blankCount : ℤ), [FlashOp.erase, FlashOp.blankCheck])
  else
    let r := chanLoop ogc env (List.range 8)
    if r.1 ≠ 0 then (r.1, FlashOp.erase :: FlashOp.blankCheck :: r.2)
    else (env.progStatus 8,
      FlashOp.erase :: FlashOp.blankCheck ::
        (r.2 ++ [FlashOp.progBlock (FlashCoefficientMemoryAddress + 15 * 256) idBlock]))

lemma chanLoop_all_ok (ogc : OgcTable) (env : FlashEnv) (l : List ℕ)
    (h : ∀ c ∈ l, env.progStatus c = 0) :
    chanLoop ogc env l =
      (0, l.map fun c =>
        FlashOp.progBlock (FlashCoefficientMemoryAddress + c * 256) (chBlock ogc c)) := by
  induction l with
  | nil => rfl
  | cons c rest ih =>
    rw [chanLoop, if_neg (by simp [h c (List.mem_cons_self c rest)]),
      ih (fun b hb => h b (List.mem_cons_of_mem c hb))]
    rfl

lemma chanLoop_fail (ogc : OgcTable) (env : FlashEnv) (pre : List ℕ) (k : ℕ) (post : List ℕ)
    (hpre : ∀ c ∈ pre, env.progStatus c = 0) (hk : env.progStatus k ≠ 0) :
    chanLoop ogc env (pre ++ k :: post) =
      (env.progStatus k, (pre ++ [k]).map fun c =>
        FlashOp.progBlock (FlashCoefficientMemoryAddress + c * 256) (chBlock ogc c)) := by
  induction pre with
  | nil =>
    rw [List.nil_append, chanLoop, if_pos hk]
    rfl
  | cons c rest ih =>
    rw [List.cons_append, chanLoop, if_neg (by simp [hpre c (List.mem_cons_self c rest)]),
      ih (fun b hb => hpre b (List.mem_cons_of_mem c hb))]
    rfl

/-- Claim C4: WriteOGCoefs236 performs, in order, sector erase, blank check
(a non-zero mismatch count is returned with no page programmed), one
32-byte block per channel, and a final 256-byte block at the highest
channel slot that is 0xFF filler with the identity string at offset 0xF0;
any phase failure is returned immediately with no later phase attempted. -/
theorem C4_write_phase_ordering (ogc : OgcTable) (env : FlashEnv) :
    (env.eraseStatus ≠ 0 →
      WriteOGCoefs236Trace ogc env = (env.eraseStatus, [FlashOp.erase])) ∧
    (env.eraseStatus = 0 → env.blankCount ≠ 0 →
      WriteOGCoefs236Trace ogc env =
        ((env.blankCount : ℤ), [FlashOp.erase, FlashOp.blankCheck])) ∧
    (env.eraseStatus = 0 → env.blankCount = 0 → (∀ k, k ≤ 8 → env.progStatus k = 0) →
      WriteOGCoefs236Trace ogc env =
        (0, FlashOp.erase :: FlashOp.blankCheck ::
          (((List.range 8).map fun c =>
              FlashOp.progBlock (FlashCoefficientMemoryAddress + c * 256) (chBlock ogc c)) ++
            [FlashOp.progBlock (FlashCoefficientMemoryAddress + 15 * 256) idBlock]))) ∧
    (∀ k, env.eraseStatus = 0 → env.blankCount = 0 → k < 8 → env.progStatus k ≠ 0 →
      (∀ j, j < k → env.progStatus j = 0) →
      WriteOGCoefs236Trace ogc env =
        (env.progStatus k, FlashOp.erase :: FlashOp.blankCheck ::
          ((List.range (k + 1)).map fun c =>
            FlashOp.progBlock (FlashCoefficientMemoryAddress + c * 256) (chBlock ogc c)))) ∧
    ((∀ c, (chBlock ogc c).length = 32) ∧ idBlock.length = 256 ∧
      (∀ i, i < 0xF0 → idBlock.getD i 0 = 0xFF) ∧
      (∀ i, i < 6 → idBlock.getD (0xF0 + i) 0 = FlashIDString.getD i 0) ∧
      (∀ i, 0xF6 ≤ i → i < 256 → idBlock.getD i 0 = 0xFF)) := by
  refine ⟨?_, ?_, ?_, ?_, ?_, ?_, ?_, ?_, ?_⟩
  · intro h
    rw [WriteOGCoefs236Trace, if_pos h]
  · intro h1 h2
    rw [WriteOGCoefs236Trace, if_neg (by simp [h1]), if_pos h2]
  · intro h1 h2 h3
    rw [WriteOGCoefs236Trace, if_neg (by simp [h1]), if_neg (by simp [h2]),
      chanLoop_all_ok ogc env _ (fun c hc => h3 c (by
        rw [List.mem_range] at hc
        omega))]
    rw [if_neg (by simp), h3 8 (le_refl 8)]
  · intro k h1 h2 hk8 hk hj
    have hsplit : List.range 8 = List.range k ++ k :: ((List.range (7 - k)).map
        fun j => k + 1 + j) := by
      rw [show 8 = k + 1 + (7 - k) from by omega, List.range_add, List.range_succ]
      simp [List.append_assoc]
    rw [WriteOGCoefs236Trace, if_neg (by simp [h1]), if_neg (by simp [h2]), hsplit,
      chanLoop_fail ogc env _ k _ (fun c hc => hj c (List.mem_range.mp hc)) hk,
      if_pos (by simp [hk]), ← List.range_succ]
  · intro c
    exact chBlock_length ogc c
  · exact idBlock_length
  · intro i hi
    have : ∀ i, i < 0xF0 → idBlock.getD i 0 = 0xFF := by decide
    exact this i hi
  · intro i hi
    have : ∀ i, i < 6 → idBlock.getD (0xF0 + i) 0 = FlashIDString.getD i 0 := by decide
    exact this i hi
  · intro i hi1 hi2
    have : ∀ i, 0xF6 ≤ i → i < 256 → idBlock.getD i 0 = 0xFF := by decide
    exact this i hi1 hi2

/-- Witness for C4: the four phase outcomes at concrete environments. -/
theorem C4_write_phase_ordering_witness :
    (WriteOGCoefs236Trace (fun _ _ => (1, 2)) ⟨-1, 0, fun _ => 0⟩ =
      (-1, [FlashOp.erase])) ∧
    (WriteOGCoefs236Trace (fun _ _ => (1, 2)) ⟨0, 3, fun _ => 0⟩ =
      ((3 : ℤ), [FlashOp.erase, FlashOp.blankCheck])) ∧
    (WriteOGCoefs236Trace (fun _ _ => (1, 2)) ⟨0, 0, fun _ => 0⟩ =
      (0, FlashOp.erase :: FlashOp.blankCheck ::
        (((List.range 8).map fun c =>
            FlashOp.progBlock (FlashCoefficientMemoryAddress + c * 256)
              (chBlock (fun _ _ => (1, 2)) c)) ++
          [FlashOp.progBlock (FlashCoefficientMemoryAddress + 15 * 256) idBlock]))) ∧
    (WriteOGCoefs236Trace (fun _ _ => (1, 2)) ⟨0, 0, fun j => if j < 2 then 0 else -2⟩ =
      (-2, FlashOp.erase :: FlashOp.blankCheck ::
        ((List.range 3).map fun c =>
          FlashOp.progBlock (FlashCoefficientMemoryAddress + c * 256)
            (chBlock (fun _ _ => (1, 2)) c)))) :=
  ⟨(C4_write_phase_ordering (fun _ _ => (1, 2)) ⟨-1, 0, fun _ => 0⟩).1 (by norm_num),
   (C4_write_phase_ordering (fun _ _ => (1, 2)) ⟨0, 3, fun _ => 0⟩).2.1 rfl (by norm_num),
   (C4_write_phase_ordering (fun _ _ => (1, 2)) ⟨0, 0, fun _ => 0⟩).2.2.1 rfl rfl
     (fun k _ => rfl),
   (C4_write_phase_ordering (fun _ _ => (1, 2))
       ⟨0, 0, fun j => if j < 2 then 0 else -2⟩).2.2.2.1 2 rfl rfl (by omega)
     (by norm_num) (fun j hj => by simp [hj])⟩

/-! Section 3: the DMA streaming engine.
Source: wro235.c, fifodmawro235 (lines 165-249), with DMAMAX_TRIES and the
status bits from AP235.h.  The status-register reads are environment
parameters: status0 is the idle check read before arming; polls i is the
i-th completion poll.  The outcome distinguishes the three observable ends
of the routine: normal completion, the "DMA timeout!" message, and the
"Device not idle" message. -/

/-- DMAMAX_TRIES from AP235.h. -/
def DMAMAX_TRIES : ℕ := 300000

/-- DMATransferComplete bit (1 <<< 1) from AP235.h. -/
def DMATransferComplete : ℕ := 2

/-- Observable outcome of one fifodmawro235 call. -/
inductive DmaResult
  | done
  | timeout
  | busy
  deriving DecidableEq

/-- State and outcome of one fifodmawro235 call: the result, the ping-pong
toggle array after the call, and whether the tail-descriptor-pointer write
that starts a transfer was issued. -/
structure DmaOut where
  result : DmaResult
  pingpong : ℕ → ℕ
  started : Bool

/-- fifodmawro235 (wro235.c lines 165-249): reset the controller, pick the
page the toggle selects, zero the three descriptor status words, then check
idle; when idle, start the transfer, flip the toggle, and poll completion
up to DMAMAX_TRIES times; when not idle, report busy without starting or
flipping. -/
def fifodmawro235 (pingpong : ℕ → ℕ) (channel : ℕ) (status0 : ℕ) (polls : ℕ → ℕ) :
    DmaOut :=
  if status0 &&& DMATransferComplete ≠ 0 then
    let pingpong' := fun c => if c = channel then pingpong c ^^^ 1 else pingpong c
    if (List.range DMAMAX_TRIES).any (fun i => polls i &&& DMATransferComplete != 0) then
      ⟨DmaResult.done, pingpong', true⟩
    else ⟨DmaResult.timeout, pingpong', true⟩
  else ⟨DmaResult.busy, pingpong, false⟩

/-- Iterate fifodmawro235 on one channel over a list of (status0, polls)
environments, tracking the toggle state. -/
def runDma (pingpong : ℕ → ℕ) (channel : ℕ) : List (ℕ × (ℕ → ℕ)) → (ℕ → ℕ)
  | [] => pingpong
  | c :: rest => runDma (fifodmawro235 pingpong channel c.1 c.2).pingpong channel rest

lemma fifodma_busy (pingpong : ℕ → ℕ) (channel status0 : ℕ) (polls : ℕ → ℕ)
    (h : status0 &&& DMATransferComplete = 0) :
    fifodmawro235 pingpong channel status0 polls = ⟨DmaResult.busy, pingpong, false⟩ := by
  rw [fifodmawro235, if_neg (by simp [h])]

lemma fifodma_armed_pingpong (pingpong : ℕ → ℕ) (channel status0 : ℕ) (polls : ℕ → ℕ)
    (h : status0 &&& DMATransferComplete ≠ 0) :
    (fifodmawro235 pingpong channel status0 polls).pingpong =
      fun c => if c = channel then pingpong c ^^^ 1 else pingpong c := by
  rw [fifodmawro235, if_pos h]
  split <;> rfl

lemma fifodma_armed_started (pingpong : ℕ → ℕ) (channel status0 : ℕ) (polls : ℕ → ℕ)
    (h : status0 &&& DMATransferComplete ≠ 0) :
    (fifodmawro235 pingpong channel status0 polls).started = true := by
  rw [fifodmawro235, if_pos h]
  split <;> rfl

lemma fifodma_timeout (pingpong : ℕ → ℕ) (channel status0 : ℕ) (polls : ℕ → ℕ)
    (h : status0 &&& DMATransferComplete ≠ 0)
    (hp : ∀ i, i < DMAMAX_TRIES → polls i &&& DMATransferComplete = 0) :
    fifodmawro235 pingpong channel status0 polls =
      ⟨DmaResult.timeout, fun c => if c = channel then pingpong c ^^^ 1 else pingpong c,
        true⟩ := by
  rw [fifodmawro235, if_pos h, if_neg ?_]
  simp only [Bool.not_eq_true, List.any_eq_false, List.mem_range]
  intro i hi
  simp [hp i hi]

/-- Claim C6: when the controller does not report idle, fifodmawro235 ends
with the busy message, starts no transfer and leaves the toggle untouched;
when an armed transfer never reports complete within DMAMAX_TRIES polls,
the call ends with the timeout message and the flipped toggle stays
flipped. -/
theorem C6_dma_busy_and_timeout (pingpong : ℕ → ℕ) (channel status0 : ℕ)
    (polls : ℕ → ℕ) :
    (status0 &&& DMATransferComplete = 0 →
      fifodmawro235 pingpong channel status0 polls =
        ⟨DmaResult.busy, pingpong, false⟩) ∧
    (status0 &&& DMATransferComplete ≠ 0 →
      (∀ i, i < DMAMAX_TRIES → polls i &&& DMATransferComplete = 0) →
      (fifodmawro235 pingpong channel status0 polls).result = DmaResult.timeout ∧
      (fifodmawro235 pingpong channel status0 polls).started = true ∧
      (fifodmawro235 pingpong channel status0 polls).pingpong channel =
        pingpong channel ^^^ 1) := by
  refine ⟨fun h => fifodma_busy pingpong channel status0 polls h, fun h hp => ?_⟩
  rw [fifodma_timeout pingpong channel status0 polls h hp]
  simp

/-- Witness for C6: a zero status read reports busy untouched; an idle
status with never-completing polls reports timeout with the toggle
flipped. -/
theorem C6_dma_busy_and_timeout_witness :
    (fifodmawro235 (fun _ => 0) 3 0 (fun _ => 0) =
      ⟨DmaResult.busy, (fun _ => 0), false⟩) ∧
    ((fifodmawro235 (fun _ => 0) 3 2 (fun _ => 0)).result = DmaResult.timeout ∧
      (fifodmawro235 (fun _ => 0) 3 2 (fun _ => 0)).started = true ∧
      (fifodmawro235 (fun _ => 0) 3 2 (fun _ => 0)).pingpong 3 = 0 ^^^ 1) :=
  ⟨(C6_dma_busy_and_timeout (fun _ => 0) 3 0 (fun _ => 0)).1 rfl,
   (C6_dma_busy_and_timeout (fun _ => 0) 3 2 (fun _ => 0)).2 (by decide)
     (fun i _ => by simp)⟩

/-- Counterexample to claim C5 as stated: the toggle flips once per armed
transfer, not once per successful transfer.  Starting from the all-zero
toggle state, a single armed call whose completion polling times out is not
a successful transfer (N = 0 successful transfers, so the claim puts the
active page at ping = 0), yet the toggle ends at pong = 1. -/
theorem C5_pingpong_counterexample :
    (fifodmawro235 (fun _ => 0) 0 2 (fun _ => 0)).result = DmaResult.timeout ∧
    (fifodmawro235 (fun _ => 0) 0 2 (fun _ => 0)).pingpong 0 = 1 ∧
    (fifodmawro235 (fun _ => 0) 0 2 (fun _ => 0)).pingpong 0 ≠ (fun _ => (0 : ℕ)) 0 := by
  rw [fifodma_timeout (fun _ => 0) 0 2 (fun _ => 0) (by decide) (fun i _ => by simp)]
  exact ⟨rfl, rfl, by decide⟩

lemma runDma_parity (channel : ℕ) (calls : List (ℕ × (ℕ → ℕ))) (pingpong : ℕ → ℕ) :
    runDma pingpong channel calls channel =
      pingpong channel ^^^
        (calls.countP fun c => c.1 &&& DMATransferComplete != 0) % 2 := by
  induction calls generalizing pingpong with
  | nil => simp [runDma]
  | cons c rest ih =>
    rw [runDma]
    rcases eq_or_ne (c.1 &&& DMATransferComplete) 0 with h | h
    · rw [fifodma_busy pingpong channel c.1 c.2 h, ih,
        List.countP_cons_of_neg _ _ (by simp [h])]
    · rw [fifodma_armed_pingpong pingpong channel c.1 c.2 h, ih,
        List.countP_cons_of_pos _ _ (by simp [h])]
      simp only [if_true]
      rw [Nat.xor_assoc]
      congr 1
      rcases Nat.mod_two_eq_zero_or_one
          (rest.countP fun c => c.1 &&& DMATransferComplete != 0) with h2 | h2
      · rw [h2, show (1 : ℕ) ^^^ 0 = 1 from by decide]
        omega
      · rw [h2, show (1 : ℕ) ^^^ 1 = 0 from by decide]
        omega

lemma runDma_other (channel : ℕ) (calls : List (ℕ × (ℕ → ℕ))) (pingpong : ℕ → ℕ)
    (c : ℕ) (hc : c ≠ channel) :
    runDma pingpong channel calls c = pingpong c := by
  induction calls generalizing pingpong with
  | nil => rfl
  | cons x rest ih =>
    rw [runDma]
    rcases eq_or_ne (x.1 &&& DMATransferComplete) 0 with h | h
    · rw [fifodma_busy pingpong channel x.1 x.2 h, ih]
    · rw [fifodma_armed_pingpong pingpong channel x.1 x.2 h, ih]
      simp [hc]

/-- Claim C5 amended: the toggle flips exactly once per armed call (one
whose idle check passes, whether the transfer then completes or times out)
and never on a busy call; the selector is always a single bit, so exactly
one of ping/pong is active; and starting from the all-zero toggle state,
after N armed calls on a channel the active page is ping when N is even and
pong when N is odd — in particular this holds when all N transfers
completed successfully.  Other channels are never flipped. -/
theorem C5_pingpong_toggle (calls : List (ℕ × (ℕ → ℕ))) (channel : ℕ)
    (pingpong : ℕ → ℕ) (hzero : ∀ c, pingpong c = 0) :
    runDma pingpong channel calls channel =
      (calls.countP fun c => c.1 &&& DMATransferComplete != 0) % 2 ∧
    (runDma pingpong channel calls channel = 0 ∨
      runDma pingpong channel calls channel = 1) ∧
    (∀ status0 polls,
      (status0 &&& DMATransferComplete ≠ 0 →
        (fifodmawro235 pingpong channel status0 polls).pingpong channel =
          pingpong channel ^^^ 1) ∧
      (status0 &&& DMATransferComplete = 0 →
        (fifodmawro235 pingpong channel status0 polls).pingpong = pingpong)) ∧
    (∀ c, c ≠ channel → runDma pingpong channel calls c = 0) := by
  have hpar := runDma_parity channel calls pingpong
  rw [hzero channel, Nat.zero_xor] at hpar
  refine ⟨hpar, ?_, ?_, ?_⟩
  · rw [hpar]
    omega
  · intro status0 polls
    constructor
    · intro h
      rw [fifodma_armed_pingpong pingpong channel status0 polls h]
      simp
    · intro h
      rw [fifodma_busy pingpong channel status0 polls h]
  · intro c hc
    rw [runDma_other channel calls pingpong c hc, hzero c]

/-- A concrete call sequence: an armed call that completes, a busy call,
and an armed call that times out. -/
def c5calls : List (ℕ × (ℕ → ℕ)) := [(2, fun _ => 2), (0, fun _ => 0), (2, fun _ => 0)]

/-- Witness for C5 (amended): over c5calls the toggle ends at the parity of
the two armed calls, and other channels stay at ping. -/
theorem C5_pingpong_toggle_witness :
    runDma (fun _ => 0) 0 c5calls 0 =
      (c5calls.countP fun c => c.1 &&& DMATransferComplete != 0) % 2 ∧
    (∀ c, c ≠ 0 → runDma (fun _ => 0) 0 c5calls c = 0) :=
  ⟨(C5_pingpong_toggle c5calls 0 (fun _ => 0) (fun _ => rfl)).1,
   (C5_pingpong_toggle c5calls 0 (fun _ => 0) (fun _ => rfl)).2.2.2⟩

/-! Section 4: the channel configuration sequences.
Sources: ap236F/cnfg236.c (cnfg236) and cnfg235.c (cnfg235), with the
control codes from AP236.h / AP235.h.  Each function is modelled as the
ordered list of register writes it issues (the 2 microsecond settle delays
are not modelled). -/

/-- WriteControl command code from AP236.h / AP235.h. -/
def WriteControl : ℕ := 4

/-- DataResetWrite command code. -/
def DataResetWrite : ℕ := 7

/-- FullResetWrite command code. -/
def FullResetWrite : ℕ := 0xF

/-- DAC_FIFO operating mode code from AP235.h. -/
def DAC_FIFO : ℕ := 2

/-- DAC_SB operating mode code from AP235.h. -/
def DAC_SB : ℕ := 3

/-- DAC_FIFO_DMA operating mode code from AP235.h. -/
def DAC_FIFO_DMA : ℕ := 4

/-- FIFO_SBURST interrupt source code from AP235.h. -/
def FIFO_SBURST : ℕ := 1

/-- The per-channel configuration record of the AP236 board (the fields
cnfg236 reads). -/
structure Chan236 where
  ParameterMask : ℕ
  ClearVoltage : ℕ
  OverRange : ℕ
  ThermalShutdown : ℕ
  PowerUpVoltage : ℕ
  Range : ℕ

/-- The control word cnfg236 builds (cnfg236.c lines 93-112): WriteControl
in the command field, and each data field merged in only when its
ParameterMask bit is set. -/
def cnfg236control (c : Chan236) : ℕ :=
  (WriteControl <<< 16) |||
  (if c.ParameterMask &&& 0x10 ≠ 0 then c.ClearVoltage <<< 9 else 0) |||
  (if c.ParameterMask &&& 0x08 ≠ 0 then c.OverRange <<< 8 else 0) |||
  (if c.ParameterMask &&& 0x04 ≠ 0 then c.ThermalShutdown <<< 6 else 0) |||
  (if c.ParameterMask &&& 0x02 ≠ 0 then c.PowerUpVoltage <<< 3 else 0) |||
  (if c.ParameterMask &&& 0x01 ≠ 0 then c.Range else 0)

/-- cnfg236 (cnfg236.c lines 64-116) as the ordered list of values written
to the channel's dac_reg: a full-reset write when mask bit 0x80 is set, a
data-reset write when mask bit 0x40 is set, then always the control word. -/
def cnfg236 (c : Chan236) : List ℕ :=
  (if c.ParameterMask &&& 0x80 ≠ 0 then [FullResetWrite <<< 16] else []) ++
  (if c.ParameterMask &&& 0x40 ≠ 0 then [DataResetWrite <<< 16] else []) ++
  [cnfg236control c]

/-- Registers cnfg235 writes. -/
inductive Reg235
  | clearIntEnable
  | directAccess (channel : ℕ)
  | dacStatus (channel : ℕ)
  | timerDivider
  | commonControl
  | dacControl (channel : ℕ)
  | setIntEnable
  deriving DecidableEq

/-- The per-channel configuration record of the AP235 board (the fields
cnfg235 reads). -/
structure Chan235 where
  ClearVoltage : ℕ
  OverRange : ℕ
  ThermalShutdown : ℕ
  PowerUpVoltage : ℕ
  Range : ℕ
  OpMode : ℕ
  TriggerSource : ℕ
  InterruptSource : ℕ
  UnderflowClear : ℕ

/-- The control word cnfg235 builds unconditionally from every field
(cnfg235.c lines 90-100). -/
def cnfg235control (c : Chan235) : ℕ :=
  (WriteControl <<< 16) ||| (c.ClearVoltage <<< 9) ||| (c.OverRange <<< 8) |||
  (c.ThermalShutdown <<< 6) ||| (c.PowerUpVoltage <<< 3) ||| c.Range

/-- cnfg235 (cnfg235.c lines 64-137) as the ordered list of register writes:
disable the channel interrupt, full reset, data reset, control word, status
underflow clear, timer divider, common-control read-modify-write (commonOld
is the value the read returns), channel control with the DAC_FIFO_DMA alias
written as DAC_FIFO, and the interrupt enable only for the
interrupt-capable modes with FIFO_SBURST selected. -/
def cnfg235 (c : Chan235) (channel : ℕ) (timerDivider trigDir commonOld : ℕ) :
    List (Reg235 × ℕ) :=
  [(Reg235.clearIntEnable, 1 <<< channel),
   (Reg235.directAccess channel, FullResetWrite <<< 16),
   (Reg235.directAccess channel, DataResetWrite <<< 16),
   (Reg235.directAccess channel, cnfg235control c),
   (Reg235.dacStatus channel, c.UnderflowClear <<< 3),
   (Reg235.timerDivider, timerDivider),
   (Reg235.commonControl, (commonOld &&& 0xFFFFFFF7) ||| (trigDir <<< 3)),
   (Reg235.dacControl channel,
     (if c.OpMode = DAC_FIFO_DMA then DAC_FIFO else c.OpMode) |||
       (c.TriggerSource <<< 2))] ++
  (if (c.OpMode = DAC_SB ∨ c.OpMode = DAC_FIFO ∨ c.OpMode = DAC_FIFO_DMA) ∧
      c.InterruptSource = FIFO_SBURST
   then [(Reg235.setIntEnable, 1 <<< channel)] else [])

/-- Counterexample to claim C7 as stated: with an all-zero ParameterMask no
mask bit is set, so under the claim no register field would be written and
the hardware would be left untouched; cnfg236 nevertheless always writes
the control register once, with every unmasked field as zero (here the
configured ClearVoltage 3, OverRange 1, ThermalShutdown 1, PowerUpVoltage 1
and Range 2 are all dropped, 0x40000 is written). -/
theorem C7_sparse_update_counterexample :
    cnfg236 ⟨0, 3, 1, 1, 1, 2⟩ = [0x40000] ∧
    cnfg236 ⟨0, 3, 1, 1, 1, 2⟩ ≠ [] := by
  constructor
  · decide
  · decide

/-- Claim C7 amended: in cnfg236 the reset writes are issued exactly when
mask bits 0x80/0x40 are set and the control-register write always occurs;
mask bits 0x10/0x08/0x04/0x02/0x01 gate only whether the configured field
value is merged into that always-written control word (an unmasked field is
written as zero, and its configured value cannot influence any write); and
cnfg235 performs the full reset then data reset unconditionally before
every configuration. -/
theorem C7_config_mask_and_reset (c c' : Chan236) (x : Chan235)
    (channel timerDivider trigDir commonOld : ℕ) :
    (cnfg236 c ≠ []) ∧
    ((cnfg236 c).length =
      (if c.ParameterMask &&& 0x80 ≠ 0 then 1 else 0) +
      (if c.ParameterMask &&& 0x40 ≠ 0 then 1 else 0) + 1) ∧
    ((cnfg236 c).getLast? = some (cnfg236control c)) ∧
    (c.ParameterMask = c'.ParameterMask →
      (c.ParameterMask &&& 0x10 ≠ 0 → c.ClearVoltage = c'.ClearVoltage) →
      (c.ParameterMask &&& 0x08 ≠ 0 → c.OverRange = c'.OverRange) →
      (c.ParameterMask &&& 0x04 ≠ 0 → c.ThermalShutdown = c'.ThermalShutdown) →
      (c.ParameterMask &&& 0x02 ≠ 0 → c.PowerUpVoltage = c'.PowerUpVoltage) →
      (c.ParameterMask &&& 0x01 ≠ 0 → c.Range = c'.Range) →
      cnfg236 c = cnfg236 c') ∧
    (∃ rest, cnfg235 x channel timerDivider trigDir commonOld =
      (Reg235.clearIntEnable, 1 <<< channel) ::
      (Reg235.directAccess channel, FullResetWrite <<< 16) ::
      (Reg235.directAccess channel, DataResetWrite <<< 16) :: rest) := by
  refine ⟨?_, ?_, ?_, ?_, ?_⟩
  · rw [cnfg236]
    intro hcontra
    have := congrArg List.length hcontra
    simp only [List.length_append, List.length_nil, List.length_cons] at this
    omega
  · rw [cnfg236]
    by_cases h80 : c.ParameterMask &&& 0x80 ≠ 0 <;>
      by_cases h40 : c.ParameterMask &&& 0x40 ≠ 0 <;>
      simp [h80, h40]
  · rw [cnfg236]
    by_cases h80 : c.ParameterMask &&& 0x80 ≠ 0 <;>
      by_cases h40 : c.ParameterMask &&& 0x40 ≠ 0 <;>
      simp [h80, h40]
  · intro hm h10 h08 h04 h02 h01
    have e10 : (if c'.ParameterMask &&& 0x10 ≠ 0 then c.ClearVoltage <<< 9 else 0) =
        (if c'.ParameterMask &&& 0x10 ≠ 0 then c'.ClearVoltage <<< 9 else 0) := by
      split
      · rw [h10 (hm ▸ ‹c'.ParameterMask &&& 0x10 ≠ 0›)]
      · rfl
    have e08 : (if c'.ParameterMask &&& 0x08 ≠ 0 then c.OverRange <<< 8 else 0) =
        (if c'.ParameterMask &&& 0x08 ≠ 0 then c'.OverRange <<< 8 else 0) := by
      split
      · rw [h08 (hm ▸ ‹c'.ParameterMask &&& 0x08 ≠ 0›)]
      · rfl
    have e04 : (if c'.ParameterMask &&& 0x04 ≠ 0 then c.ThermalShutdown <<< 6 else 0) =
        (if c'.ParameterMask &&& 0x04 ≠ 0 then c'.ThermalShutdown <<< 6 else 0) := by
      split
      · rw [h04 (hm ▸ ‹c'.ParameterMask &&& 0x04 ≠ 0›)]
      · rfl
    have e02 : (if c'.ParameterMask &&& 0x02 ≠ 0 then c.PowerUpVoltage <<< 3 else 0) =
        (if c'.ParameterMask &&& 0x02 ≠ 0 then c'.PowerUpVoltage <<< 3 else 0) := by
      split
      · rw [h02 (hm ▸ ‹c'.ParameterMask &&& 0x02 ≠ 0›)]
      · rfl
    have e01 : (if c'.ParameterMask &&& 0x01 ≠ 0 then c.Range else 0) =
        (if c'.ParameterMask &&& 0x01 ≠ 0 then c'.Range else 0) := by
      split
      · rw [h01 (hm ▸ ‹c'.ParameterMask &&& 0x01 ≠ 0›)]
      · rfl
    rw [cnfg236, cnfg236, cnfg236control, cnfg236control, hm, e10, e08, e04, e02, e01]
  · exact ⟨_, rfl⟩

/-- Witness for C7 (amended): two configurations differing only in fields
whose mask bits are unset produce the same write list. -/
theorem C7_config_mask_and_reset_witness :
    cnfg236 ⟨0x91, 3, 1, 1, 1, 2⟩ = cnfg236 ⟨0x91, 3, 0, 0, 0, 2⟩ ∧
    (∃ rest, cnfg235 ⟨1, 1, 1, 1, 2, 4, 0, 1, 0⟩ 5 10 1 0 =
      (Reg235.clearIntEnable, 1 <<< 5) ::
      (Reg235.directAccess 5, FullResetWrite <<< 16) ::
      (Reg235.directAccess 5, DataResetWrite <<< 16) :: rest) :=
  ⟨(C7_config_mask_and_reset ⟨0x91, 3, 1, 1, 1, 2⟩ ⟨0x91, 3, 0, 0, 0, 2⟩
      ⟨1, 1, 1, 1, 2, 4, 0, 1, 0⟩ 5 10 1 0).2.2.2.1 rfl (fun _ => rfl)
      (fun h => absurd h (by decide)) (fun h => absurd h (by decide))
      (fun h => absurd h (by decide)) (fun _ => rfl),
   (C7_config_mask_and_reset ⟨0x91, 3, 1, 1, 1, 2⟩ ⟨0x91, 3, 0, 0, 0, 2⟩
      ⟨1, 1, 1, 1, 2, 4, 0, 1, 0⟩ 5 10 1 0).2.2.2.2⟩

/-! Section 5: the register transport and the handle registry.
Source: apcommon.c (GetAP, input_byte/input_word/input_long,
output_byte/output_word/output_long) and the APSTATUS codes of apcommon.h.
Each transport operation returns its value (reads) together with a flag
recording whether the read/write syscall to the device was performed; with
SWAP_ENDIAN undefined, SwapBytes and SwapLong are the identity. -/

/-- E_INVALID_HANDLE status value from apcommon.h. -/
def E_INVALID_HANDLE : ℤ := 0x8003

/-- Per-board registry entry (the field GetAP matches on). -/
structure APData where
  nHandle : ℤ

/-- GetAP (apcommon.c lines 542-555): find the open board whose handle
matches, null when none does. -/
def GetAP (gpAP : List APData) (nHandle : ℤ) : Option APData :=
  gpAP.find? fun a => a.nHandle == nHandle

/-- input_byte (apcommon.c lines 114-133): 0 without any device access when
the handle lookup fails or the pointer is null, else the byte the device
read returns. -/
def input_byte (gpAP : List APData) (nHandle : ℤ) (pValid : Bool) (hwValue : ℕ) :
    ℕ × Bool :=
  match GetAP gpAP nHandle with
  | none => (0, false)
  | some _ => if pValid then (hwValue, true) else (0, false)

/-- input_word (apcommon.c lines 135-153): same shape as input_byte. -/
def input_word (gpAP : List APData) (nHandle : ℤ) (pValid : Bool) (hwValue : ℕ) :
    ℕ × Bool :=
  match GetAP gpAP nHandle with
  | none => (0, false)
  | some _ => if pValid then (hwValue, true) else (0, false)

/-- input_long (apcommon.c lines 156-174): same shape, long valued. -/
def input_long (gpAP : List APData) (nHandle : ℤ) (pValid : Bool) (hwValue : ℤ) :
    ℤ × Bool :=
  match GetAP gpAP nHandle with
  | none => (0, false)
  | some _ => if pValid then (hwValue, true) else (0, false)

/-- output_byte (apcommon.c lines 177-195): whether the device write was
performed (a failed lookup or null pointer performs nothing). -/
def output_byte (gpAP : List APData) (nHandle : ℤ) (pValid : Bool) : Bool :=
  match GetAP gpAP nHandle with
  | none => false
  | some _ => pValid

/-- output_word (apcommon.c lines 197-215): same shape as output_byte. -/
def output_word (gpAP : List APData) (nHandle : ℤ) (pValid : Bool) : Bool :=
  match GetAP gpAP nHandle with
  | none => false
  | some _ => pValid

/-- output_long (apcommon.c lines 218-236): same shape as output_byte. -/
def output_long (gpAP : List APData) (nHandle : ℤ) (pValid : Bool) : Bool :=
  match GetAP gpAP nHandle with
  | none => false
  | some _ => pValid

/-- Counterexample to claim C8 as stated: a register-transport operation on
a handle whose lookup fails does not fail with InvalidHandle.  On the empty
registry, input_long returns the plain value 0 — not E_INVALID_HANDLE, and
indistinguishable from a successful read of a register holding 0 — and the
write variants silently do nothing; only the APSTATUS-returning library
calls report E_INVALID_HANDLE. -/
theorem C8_invalid_handle_counterexample :
    (input_long [] 0 true 99).1 = 0 ∧
    (input_long [] 0 true 99).1 ≠ E_INVALID_HANDLE ∧
    (input_long [] 0 true 99).2 = false ∧
    (input_long [] 0 true 0).1 = (input_long [⟨0⟩] 0 true 0).1 := by
  refine ⟨rfl, by decide, rfl, by decide⟩

/-- Claim C8 amended: a register-transport operation of any width invoked
with a handle whose lookup fails performs no hardware access; the reads
return 0 and the writes do nothing, with no InvalidHandle signal. -/
theorem C8_closed_handle_no_access (gpAP : List APData) (nHandle : ℤ) (pValid : Bool)
    (hwB hwW : ℕ) (hwL : ℤ) (h : GetAP gpAP nHandle = none) :
    input_byte gpAP nHandle pValid hwB = (0, false) ∧
    input_word gpAP nHandle pValid hwW = (0, false) ∧
    input_long gpAP nHandle pValid hwL = (0, false) ∧
    output_byte gpAP nHandle pValid = false ∧
    output_word gpAP nHandle pValid = false ∧
    output_long gpAP nHandle pValid = false := by
  rw [input_byte, input_word, input_long, output_byte, output_word, output_long, h]
  exact ⟨rfl, rfl, rfl, rfl, rfl, rfl⟩

/-- Witness for C8 (amended): the empty registry and a never-opened handle. -/
theorem C8_closed_handle_no_access_witness :
    input_byte [] 7 true 5 = (0, false) ∧
    input_word [] 7 true 5 = (0, false) ∧
    input_long [] 7 true 5 = (0, false) ∧
    output_byte [] 7 true = false ∧
    output_word [] 7 true = false ∧
    output_long [] 7 true = false :=
  C8_closed_handle_no_access [] 7 true 5 5 5 rfl

end Golaborate
